import Mathlib

/-!
Verification of the deustgo error-classification package and the
filesystem-style key/value store, against a shallow embedding of the
sources. The error package ships only its test file; the store ships
result.go and its test file. Definitions that embed code missing from
the sources are modelled from the specification and carry a doc comment
saying so.
-/

set_option autoImplicit false

namespace Deustgo

namespace cerror

/-- EcodeUnknown is the unknown-error code, from the source constants. -/
def EcodeUnknown : Int := 10009999

/-- EcodeNotFile is the code for operating on a dir where a file is required. -/
def EcodeNotFile : Int := 10000001

/-- EcodeNotDir is the code for operating on a file where a dir is required. -/
def EcodeNotDir : Int := 10000002

/-- EcodeNotExists is the code for operating on a target that does not exist. -/
def EcodeNotExists : Int := 10000003

/-- EcodeExists is the code for adding a target that already exists. -/
def EcodeExists : Int := 10000004

/-- EcodeDirNotEmpty is the code for removing a directory that has children. -/
def EcodeDirNotEmpty : Int := 10000005

/-- Error is the classification record: code, template message and cause. -/
structure Error where
  ErrorCode : Int
  Message : String
  Cause : String

/-- Registry maps error codes to template messages. Go uses map int to
string; the embedding uses an association list with unique keys. -/
abbrev Registry := List (Int × String)

/-- templateError is the default registry contents, from the source test
fixture. Note that EcodeDirNotEmpty is absent from it. -/
def templateError : Registry :=
  [(EcodeUnknown, "Unknown Error"),
   (EcodeNotFile, "Target is Not File"),
   (EcodeNotDir, "Target is Not Dir"),
   (EcodeNotExists, "Target is not exists"),
   (EcodeExists, "Target is exists")]

/-- otherMessage is the overlay registry used by the source test
TestSetErrorMessageReplace. -/
def otherMessage : Registry :=
  [(100, "100"), (200, "200"), (EcodeNotDir, "EcodeNotDir")]

/-- mapInsert models one Go map assignment mSubscriptK becomes v: replace
the entry whose key is k when present, otherwise append a fresh entry. -/
def mapInsert : Registry → Int → String → Registry
  | [], k, v => [(k, v)]
  | p :: rest, k, v => if p.1 == k then (k, v) :: rest else p :: mapInsert rest k v

/-- Modelled from the spec: the implementation of SetErrorsMessage is not in
the sources (only its tests are). It merges the given templates into the
registry: codes present in both are overwritten by the new map, codes only
in the old registry are preserved. The embedding threads the process-wide
registry explicitly. -/
def SetErrorsMessage (templates : Registry) (m : Registry) : Registry :=
  List.foldl (fun acc p => mapInsert acc p.1 p.2) m templates

/-- Modelled from the spec: the implementation of NewError is not in the
sources. It builds an Error with the given code, the template message from
the registry (empty string when the code is unregistered) and the cause. -/
def NewError (errorsMessage : Registry) (code : Int) (cause : String) : Error :=
  { ErrorCode := code
    Message := (List.lookup code errorsMessage).getD ""
    Cause := cause }

/-- goQuote renders a string as a JSON string literal with the escapes
needed by the observable test strings. -/
def goQuote (s : String) : String :=
  "\"" ++ String.join (s.data.map (fun c =>
    if c = '"' then "\\\"" else if c = '\\' then "\\\\" else String.singleton c)) ++ "\""

/-- Modelled from the spec: the standard JSON serialization of an Error,
as produced by encoding json Marshal on the struct, which the sources use
but do not define. Shape is ErrorCode, Message, Cause. -/
def jsonSerialize (e : Error) : String :=
  "\x7b\"ErrorCode\":" ++ toString e.ErrorCode ++
  ",\"Message\":" ++ goQuote e.Message ++
  ",\"Cause\":" ++ goQuote e.Cause ++ "\x7d"

/-- Modelled from the spec: the implementation of JSONString is not in the
sources. The package-level marshal variable (replaceable in tests) is an
explicit parameter returning none on failure; on failure JSONString falls
back to formatting the same fields itself, so that the result still equals
the standard serialization, as the source test TestJSONStringError demands. -/
def JSONString (marshal : Error → Option String) (e : Error) : String :=
  match marshal e with
  | some s => s
  | none => "\x7b\"ErrorCode\":" ++ toString e.ErrorCode ++
      ",\"Message\":" ++ goQuote e.Message ++
      ",\"Cause\":" ++ goQuote e.Cause ++ "\x7d"

/-- marshalOk models the default value of the marshal variable, namely
encoding json Marshal, which always succeeds on an Error value. -/
def marshalOk : Error → Option String := fun e => some (jsonSerialize e)

/-- marshalFailed models the failing marshal injected by the source test
TestJSONStringError. -/
def marshalFailed : Error → Option String := fun _ => none

/-- GoErrVal models a Go value of interface type error as seen by the
package: the nil interface, a typed nil pointer of the classification
type, a non-nil classification error, or a foreign error value. -/
inductive GoErrVal where
  | nilInterface : GoErrVal
  | typedNil : GoErrVal
  | cerr (e : Error) : GoErrVal
  | foreign (msg : String) : GoErrVal

/-- Modelled from the spec: the implementation of IsError is not in the
sources. The source tests pin its behaviour at every constructor of
GoErrVal: it is the Go type assertion to the classification pointer type,
which succeeds on typed nil and on a real classification error, and fails
on a nil interface and on a foreign error. -/
def IsError : GoErrVal → Bool
  | .typedNil => true
  | .cerr _ => true
  | .nilInterface => false
  | .foreign _ => false

/-- Modelled from the spec: the implementation of Is is not in the sources.
It is true exactly when the value is a non-nil classification error whose
code equals the given code, as the source tests TestIsOk and TestIsFailed
pin at every constructor. -/
def Is : GoErrVal → Int → Bool
  | .cerr e, code => e.ErrorCode == code
  | .nilInterface, _ => false
  | .typedNil, _ => false
  | .foreign _, _ => false

end cerror

namespace store

/-- Get is the const value of the Get action, from result.go. -/
def Get : String := "get"

/-- Set is the const value of the Set action, from result.go. -/
def Set : String := "set"

/-- Update is the const value of the Update action, from result.go. -/
def Update : String := "update"

/-- Create is the const value of the Create action, from result.go. -/
def Create : String := "create"

/-- Delete is the const value of the Delete action, from result.go. -/
def Delete : String := "delete"

/-- Modelled from the spec: the Node type is not in the sources (only the
tests and result.go use it). A node carries its canonical absolute key, a
directory flag, an optional value (a Go string pointer, nil only possible
on directories) and named children (a Go map from segment to child). -/
inductive Node : Type where
  | mk (Key : String) (Dir : Bool) (Value : Option String)
      (Children : List (String × Node)) : Node

/-- Key projects the key field of a Node. -/
@[simp] def Node.Key : Node → String
  | .mk k _ _ _ => k

/-- Dir projects the directory flag of a Node. -/
@[simp] def Node.Dir : Node → Bool
  | .mk _ d _ _ => d

/-- Value projects the value field of a Node. -/
@[simp] def Node.Value : Node → Option String
  | .mk _ _ v _ => v

/-- Children projects the children field of a Node. -/
@[simp] def Node.Children : Node → List (String × Node)
  | .mk _ _ _ cs => cs

instance : Inhabited Node := ⟨.mk "" false none []⟩

mutual

/-- Modelled from the spec: deep copy of a node, the Node counterpart of
the deep-clone support the spec gives Result. -/
def cloneNode : Node → Node
  | .mk k d v cs => .mk k d v (cloneChildren cs)

/-- cloneChildren deep copies every child entry. -/
def cloneChildren : List (String × Node) → List (String × Node)
  | [] => []
  | (s, n) :: rest => (s, cloneNode n) :: cloneChildren rest

end

/-- Modelled from the spec: the Go pointer-receiver Clone on a possibly nil
Node pointer; a nil receiver yields a nil pointer. -/
def Node.Clone : Option Node → Option Node
  | none => none
  | some n => some (cloneNode n)

/-- Result is the basic action result, from result.go. Go node pointers
become Option Node. -/
structure Result where
  Action : String
  CurrNode : Option Node
  PrevNode : Option Node

instance : Inhabited Result := ⟨⟨"", none, none⟩⟩

/-- newResult builds a Result holding the action and a fresh CurrNode that
carries only the key, from result.go; the remaining Node fields take their
Go zero values. -/
def newResult (action : String) (key : String) : Result :=
  { Action := action
    CurrNode := some (Node.mk key false none [])
    PrevNode := none }

/-- Clone deep copies a Result, from result.go: it copies the action and
invokes the Node Clone on both node pointers, including a nil PrevNode. -/
def Result.Clone (r : Result) : Result :=
  { Action := r.Action
    CurrNode := Node.Clone r.CurrNode
    PrevNode := Node.Clone r.PrevNode }

/-- splitOnSlashAux splits a character list at every slash. -/
def splitOnSlashAux : List Char → List Char → List (List Char)
  | [], acc => [acc.reverse]
  | c :: rest, acc =>
    if c = '/' then acc.reverse :: splitOnSlashAux rest []
    else splitOnSlashAux rest (c :: acc)

/-- Modelled from the spec: the path resolver normalization is not in the
sources. pathSegs canonicalizes a caller-supplied key into its nonempty
path segments, collapsing redundant separators and ignoring a missing or
present leading slash. -/
def pathSegs (key : String) : List String :=
  ((splitOnSlashAux key.data []).map (fun l => String.mk l)).filter (fun s => ¬ (s = ""))

/-- joinSegs joins segments with single slashes. -/
def joinSegs : List String → String
  | [] => ""
  | [s] => s
  | s :: rest => s ++ "/" ++ joinSegs rest

/-- segsToKey renders segments as a canonical absolute path, so the root is
the single slash. -/
def segsToKey (segs : List String) : String :=
  "/" ++ joinSegs segs

/-- getChild looks a child up by segment name. -/
def getChild (cs : List (String × Node)) (name : String) : Option Node :=
  (cs.find? (fun p => p.1 == name)).map (fun p => p.2)

/-- setChild replaces the child registered under the given name. -/
def setChild (cs : List (String × Node)) (name : String) (n : Node) : List (String × Node) :=
  cs.map (fun p => if p.1 == name then (name, n) else p)

/-- removeChild removes the child registered under the given name. -/
def removeChild (cs : List (String × Node)) (name : String) : List (String × Node) :=
  cs.filter (fun p => ¬ (p.1 == name))

/-- Modelled from the spec: the read-only resolver walk is not in the
sources. It consumes one segment at a time from the current node; a
missing child or a leaf met while segments remain resolves to nothing. -/
def walk : List String → Node → Option Node
  | [], n => some n
  | s :: rest, n =>
    if n.Dir then
      match getChild n.Children s with
      | some c => walk rest c
      | none => none
    else none

/-- storeError builds the classification error a store operation returns,
with the process-wide registry modelled at its default template contents. -/
def storeError (code : Int) (cause : String) : cerror.Error :=
  cerror.NewError cerror.templateError code cause

/-- joinKey extends a parent canonical key by one segment. -/
def joinKey (parentKey : String) (seg : String) : String :=
  if parentKey = "/" then "/" ++ seg else parentKey ++ "/" ++ seg

/-- Modelled from the spec: the creation descent is not in the sources.
createCore inserts a node at the given segments under a parent with the
given canonical key and children: it auto-creates missing intermediate
directories, fails with EcodeNotDir when an intermediate segment is a
leaf, and fails with EcodeExists when the final path is already occupied.
It returns the updated children of the parent. -/
def createCore (parentKey : String) (cs : List (String × Node)) (isDir : Bool)
    (value : String) : List String → Except cerror.Error (List (String × Node))
  | [] => .error (storeError cerror.EcodeExists parentKey)
  | [s] =>
    match getChild cs s with
    | some _ => .error (storeError cerror.EcodeExists (joinKey parentKey s))
    | none =>
      .ok (cs ++ [(s, Node.mk (joinKey parentKey s) isDir
        (if isDir then none else some value) [])])
  | s :: rest =>
    match getChild cs s with
    | some c =>
      if c.Dir then
        match createCore (joinKey parentKey s) c.Children isDir value rest with
        | .ok cs2 => .ok (setChild cs s (Node.mk c.Key c.Dir c.Value cs2))
        | .error e => .error e
      else .error (storeError cerror.EcodeNotDir (joinKey parentKey s))
    | none =>
      match createCore (joinKey parentKey s) [] isDir value rest with
      | .ok cs2 => .ok (cs ++ [(s, Node.mk (joinKey parentKey s) true none cs2)])
      | .error e => .error e

/-- replaceAt replaces the node at the given segments with the given node,
rebuilding the children maps along the descent; unknown paths and the
empty path leave the tree unchanged. -/
def replaceAt : List (String × Node) → List String → Node → List (String × Node)
  | cs, [], _ => cs
  | cs, [s], nn => setChild cs s nn
  | cs, s :: rest, nn =>
    match getChild cs s with
    | some c => setChild cs s (Node.mk c.Key c.Dir c.Value (replaceAt c.Children rest nn))
    | none => cs

/-- removeAt removes the node at the given segments, rebuilding the
children maps along the descent; unknown paths and the empty path leave
the tree unchanged. -/
def removeAt : List (String × Node) → List String → List (String × Node)
  | cs, [] => cs
  | cs, [s] => removeChild cs s
  | cs, s :: rest =>
    match getChild cs s with
    | some c => setChild cs s (Node.mk c.Key c.Dir c.Value (removeAt c.Children rest))
    | none => cs

/-- setCurrNodeMeta fills the directory flag, value and children of the
CurrNode a newResult call produced, mirroring the field assignments the
store performs on the fresh snapshot. -/
def setCurrNodeMeta (r : Result) (d : Bool) (v : Option String)
    (cs : List (String × Node)) : Result :=
  match r.CurrNode with
  | some n => { r with CurrNode := some (Node.mk n.Key d v cs) }
  | none => r

/-- insertByName inserts an entry into a name-sorted child list. -/
def insertByName (p : String × Node) : List (String × Node) → List (String × Node)
  | [] => [p]
  | q :: qs => if p.1 ≤ q.1 then p :: q :: qs else q :: insertByName p qs

/-- sortByName sorts a child list by segment name. -/
def sortByName : List (String × Node) → List (String × Node)
  | [] => []
  | p :: ps => insertByName p (sortByName ps)

/-- Modelled from the spec: the directory listing step of Get is not in
the sources. A leaf lists no children; a directory lists deep-cloned
children when recursive and one level otherwise, sorted by name when
requested. -/
def listChildren (n : Node) (recursive : Bool) (sorted : Bool) : List (String × Node) :=
  if n.Dir then
    let cs :=
      if recursive then cloneChildren n.Children
      else n.Children.map (fun p => (p.1, Node.mk p.2.Key p.2.Dir p.2.Value []))
    if sorted then sortByName cs else cs
  else []

/-- defaultFileSystemStore holds the root directory node, whose canonical
key is the single slash. -/
structure defaultFileSystemStore where
  root : Node

/-- newDefaultFileSystemStore builds a store holding an empty root
directory. -/
def newDefaultFileSystemStore : defaultFileSystemStore :=
  ⟨Node.mk "/" true none []⟩

/-- Modelled from the spec: the Get operation is not in the sources. It
resolves the canonical path; a missing target fails with EcodeNotExists,
and a located node is snapshotted into a Result with action get, the
canonical key, and a null PrevNode. -/
def defaultFileSystemStore.Get (st : defaultFileSystemStore) (key : String)
    (recursive : Bool) (sorted : Bool) : Except cerror.Error Result :=
  let segs := pathSegs key
  let k := segsToKey segs
  match walk segs st.root with
  | none => .error (storeError cerror.EcodeNotExists k)
  | some n =>
    .ok (setCurrNodeMeta (newResult store.Get k) n.Dir n.Value (listChildren n recursive sorted))

/-- Modelled from the spec: the Create operation is not in the sources. It
creates the node at the canonical path with auto-created intermediate
directories, failing with EcodeExists when the path is occupied and with
EcodeNotDir when an intermediate segment is a leaf; on success the Result
has action create, the new node snapshot and a null PrevNode. -/
def defaultFileSystemStore.Create (st : defaultFileSystemStore) (key : String)
    (isDir : Bool) (value : String) :
    Except cerror.Error (defaultFileSystemStore × Result) :=
  let segs := pathSegs key
  let k := segsToKey segs
  match createCore "/" st.root.Children isDir value segs with
  | .error e => .error e
  | .ok cs =>
    .ok (⟨Node.mk "/" true none cs⟩,
      setCurrNodeMeta (newResult store.Create k) isDir (if isDir then none else some value) [])

/-- Modelled from the spec: the Set operation is not in the sources. When
the canonical path does not resolve it behaves like Create with action
set; when it resolves, Set unconditionally replaces the node with the
requested kind and content, capturing the old node as PrevNode. -/
def defaultFileSystemStore.Set (st : defaultFileSystemStore) (key : String)
    (isDir : Bool) (value : String) :
    Except cerror.Error (defaultFileSystemStore × Result) :=
  let segs := pathSegs key
  let k := segsToKey segs
  match walk segs st.root with
  | none =>
    match createCore "/" st.root.Children isDir value segs with
    | .error e => .error e
    | .ok cs =>
      .ok (⟨Node.mk "/" true none cs⟩,
        setCurrNodeMeta (newResult store.Set k) isDir (if isDir then none else some value) [])
  | some old =>
    let r0 := setCurrNodeMeta (newResult store.Set k) isDir (if isDir then none else some value) []
    .ok (⟨Node.mk "/" true none (replaceAt st.root.Children segs
        (Node.mk k isDir (if isDir then none else some value) []))⟩,
      { r0 with PrevNode := some (Node.mk k old.Dir old.Value old.Children) })

/-- Modelled from the spec: the Update operation is not in the sources. It
requires the canonical path to resolve to a leaf, failing with
EcodeNotExists when absent and EcodeNotFile on a directory; it captures
the pre-update node as PrevNode and replaces the value. -/
def defaultFileSystemStore.Update (st : defaultFileSystemStore) (key : String)
    (value : String) : Except cerror.Error (defaultFileSystemStore × Result) :=
  let segs := pathSegs key
  let k := segsToKey segs
  match walk segs st.root with
  | none => .error (storeError cerror.EcodeNotExists k)
  | some n =>
    if n.Dir then .error (storeError cerror.EcodeNotFile k)
    else
      let r0 := setCurrNodeMeta (newResult store.Update k) false (some value) []
      .ok (⟨Node.mk "/" true none (replaceAt st.root.Children segs
          (Node.mk k false (some value) []))⟩,
        { r0 with PrevNode := some (Node.mk k n.Dir n.Value n.Children) })

/-- Modelled from the spec: the Delete operation is not in the sources. A
missing target fails with EcodeNotExists; a directory with children fails
with EcodeDirNotEmpty unless recursive; otherwise the node (and subtree)
is removed, and the Result carries the pre-deletion snapshot as both
CurrNode and PrevNode. -/
def defaultFileSystemStore.Delete (st : defaultFileSystemStore) (key : String)
    (recursive : Bool) (dir : Bool) :
    Except cerror.Error (defaultFileSystemStore × Result) :=
  let segs := pathSegs key
  let k := segsToKey segs
  match walk segs st.root with
  | none => .error (storeError cerror.EcodeNotExists k)
  | some n =>
    if n.Dir && !n.Children.isEmpty && !recursive then
      .error (storeError cerror.EcodeDirNotEmpty k)
    else
      let r0 := setCurrNodeMeta (newResult store.Delete k) n.Dir n.Value []
      .ok (⟨Node.mk "/" true none (removeAt st.root.Children segs)⟩,
        { r0 with PrevNode := r0.CurrNode })

mutual

/-- WFb decides whether every node of a tree rooted at the given segments
carries the canonical key of its position; store-built trees satisfy it. -/
def WFb (segs : List String) : Node → Bool
  | .mk k _ _ cs => (k == segsToKey segs) && WFbChildren segs cs

/-- WFbChildren decides WFb for every child entry. -/
def WFbChildren (segs : List String) : List (String × Node) → Bool
  | [] => true
  | (s, n) :: rest => WFb (segs ++ [s]) n && WFbChildren segs rest

end

/-- keysAligned states that the CurrNode and PrevNode of a Result carry the
same key whenever both are present. -/
def keysAligned (r : Result) : Prop :=
  ∀ c p, r.CurrNode = some c → r.PrevNode = some p → c.Key = p.Key

/-- demoStore is the store obtained from a fresh store by Set of key xxx
with value xxx, mirroring the source test setup. -/
def demoStore : defaultFileSystemStore :=
  match newDefaultFileSystemStore.Set "xxx" false "xxx" with
  | .ok p => p.1
  | .error _ => newDefaultFileSystemStore

/-- demoUpdateStore is the store after the demo Update call. -/
def demoUpdateStore : defaultFileSystemStore :=
  match demoStore.Update "/xxx" "newxxx" with
  | .ok p => p.1
  | .error _ => demoStore

/-- demoUpdateResult is the Result of the demo Update call. -/
def demoUpdateResult : Result :=
  match demoStore.Update "/xxx" "newxxx" with
  | .ok p => p.2
  | .error _ => default

/-- demoDeleteStore is the store after the demo Delete call. -/
def demoDeleteStore : defaultFileSystemStore :=
  match demoStore.Delete "xxx" false false with
  | .ok p => p.1
  | .error _ => demoStore

/-- demoDeleteResult is the Result of the demo Delete call. -/
def demoDeleteResult : Result :=
  match demoStore.Delete "xxx" false false with
  | .ok p => p.2
  | .error _ => default

/-- demoGetResult is the Result of the demo Get call. -/
def demoGetResult : Result :=
  match demoStore.Get "xxx" false false with
  | .ok r => r
  | .error _ => default

end store

namespace cerror

theorem setErrorsMessage_nil (m : Registry) : SetErrorsMessage [] m = m := rfl

theorem setErrorsMessage_cons (t : Int × String) (ts : Registry) (m : Registry) :
    SetErrorsMessage (t :: ts) m = SetErrorsMessage ts (mapInsert m t.1 t.2) := rfl

theorem lookup_mapInsert_self (m : Registry) (k : Int) (v : String) :
    List.lookup k (mapInsert m k v) = some v := by
  induction m with
  | nil => simp [mapInsert, List.lookup]
  | cons p rest ih =>
    by_cases h : p.1 = k
    · simp [mapInsert, h, List.lookup]
    · have hb : (p.1 == k) = false := by simpa using h
      have hb2 : (k == p.1) = false := by simpa using Ne.symm h
      simp [mapInsert, hb, List.lookup, hb2, ih]

theorem lookup_mapInsert_ne (m : Registry) (k j : Int) (v : String) (h : j ≠ k) :
    List.lookup j (mapInsert m k v) = List.lookup j m := by
  induction m with
  | nil =>
    have hb : (j == k) = false := by simpa using h
    simp [mapInsert, List.lookup, hb]
  | cons p rest ih =>
    by_cases hp : p.1 = k
    · subst hp
      have hb : (j == p.1) = false := by simpa using h
      simp [mapInsert, List.lookup, hb]
    · have hb : (p.1 == k) = false := by simpa using hp
      by_cases hj : j = p.1
      · simp [mapInsert, hb, List.lookup, hj]
      · have hb2 : (j == p.1) = false := by simpa using hj
        simp [mapInsert, hb, List.lookup, hb2, ih]

theorem mem_keys_mapInsert (m : Registry) (k : Int) (v : String) (x : Int) :
    x ∈ (mapInsert m k v).map Prod.fst ↔ x ∈ m.map Prod.fst ∨ x = k := by
  induction m with
  | nil => simp [mapInsert]
  | cons p rest ih =>
    by_cases h : p.1 = k
    · subst h
      simp [mapInsert]
      tauto
    · have hb : (p.1 == k) = false := by simpa using h
      simp [mapInsert, hb, ih]
      tauto

theorem nodup_keys_mapInsert (m : Registry) (k : Int) (v : String)
    (h : (m.map Prod.fst).Nodup) : ((mapInsert m k v).map Prod.fst).Nodup := by
  induction m with
  | nil => simp [mapInsert]
  | cons p rest ih =>
    simp only [List.map_cons, List.nodup_cons] at h
    by_cases hp : p.1 = k
    · subst hp
      simpa [mapInsert, List.nodup_cons] using h
    · have hb : (p.1 == k) = false := by simpa using hp
      rw [show mapInsert (p :: rest) k v = p :: mapInsert rest k v from by
        simp [mapInsert, hb]]
      rw [List.map_cons, List.nodup_cons]
      constructor
      · intro hmem
        rcases (mem_keys_mapInsert rest k v p.1).mp hmem with h1 | h1
        · exact h.1 h1
        · exact hp h1
      · exact ih h.2

theorem lookup_setErrorsMessage_not_mem (O : Registry) (B : Registry) (j : Int)
    (h : j ∉ O.map Prod.fst) :
    List.lookup j (SetErrorsMessage O B) = List.lookup j B := by
  induction O generalizing B with
  | nil => rfl
  | cons t ts ih =>
    simp only [List.map_cons, List.mem_cons] at h
    push_neg at h
    rw [setErrorsMessage_cons, ih _ h.2, lookup_mapInsert_ne _ _ _ _ h.1]

theorem lookup_setErrorsMessage_mem (O : Registry) (B : Registry) (j : Int)
    (hO : (O.map Prod.fst).Nodup) (h : j ∈ O.map Prod.fst) :
    List.lookup j (SetErrorsMessage O B) = List.lookup j O := by
  induction O generalizing B with
  | nil => simp at h
  | cons t ts ih =>
    simp only [List.map_cons, List.nodup_cons] at hO
    rw [setErrorsMessage_cons]
    by_cases hj : j = t.1
    · subst hj
      rw [lookup_setErrorsMessage_not_mem _ _ _ hO.1, lookup_mapInsert_self]
      simp [List.lookup]
    · have hb : (j == t.1) = false := by simpa using hj
      have hmem : j ∈ ts.map Prod.fst := by
        rw [List.map_cons] at h
        rcases List.mem_cons.mp h with h1 | h1
        · exact absurd h1 hj
        · exact h1
      rw [ih _ hO.2 hmem]
      simp [List.lookup, hb]

theorem mem_keys_setErrorsMessage (O : Registry) (B : Registry) (x : Int) :
    x ∈ (SetErrorsMessage O B).map Prod.fst ↔
      x ∈ B.map Prod.fst ∨ x ∈ O.map Prod.fst := by
  induction O generalizing B with
  | nil =>
    rw [setErrorsMessage_nil]
    simp
  | cons t ts ih =>
    rw [setErrorsMessage_cons, ih, mem_keys_mapInsert]
    simp only [List.map_cons, List.mem_cons]
    tauto

theorem nodup_keys_setErrorsMessage (O : Registry) (B : Registry)
    (hB : (B.map Prod.fst).Nodup) : ((SetErrorsMessage O B).map Prod.fst).Nodup := by
  induction O generalizing B with
  | nil => exact hB
  | cons t ts ih => exact ih _ (nodup_keys_mapInsert _ _ _ hB)

/-- Claim C1 counterexample: the claim as stated requires IsError applied
to a null error to return true, but the code (as pinned by the source test
TestIsErrorFailed) returns false on the nil interface value. -/
theorem claim_C1_counterexample : ¬ (IsError GoErrVal.nilInterface = true) := by decide

/-- Claim C1 (amended): IsError returns true exactly when the error value
is of the classification type, including a nil-valued typed pointer of the
classification type; IsError applied to a null error returns false. -/
theorem claim_C1_amended :
    (∀ e, IsError e = true ↔
      (e = GoErrVal.typedNil ∨ ∃ err, e = GoErrVal.cerr err)) ∧
    IsError GoErrVal.nilInterface = false := by
  constructor
  · intro e
    cases e <;> simp [IsError]
  · rfl

/-- Claim C2: for every registry, code (registered or not) and cause,
JSONString on the constructed error equals the standard JSON serialization
of that error, both with the default marshal and with a failing marshal,
so a marshal failure never propagates and the fallback still equals the
standard serialization. -/
theorem claim_C2_jsonString_roundtrip (reg : Registry) (code : Int) (cause : String) :
    JSONString marshalOk (NewError reg code cause) =
      jsonSerialize (NewError reg code cause) ∧
    JSONString marshalFailed (NewError reg code cause) =
      jsonSerialize (NewError reg code cause) := by
  constructor <;> rfl

/-- Claim C7: Is returns true exactly when the error value is a non-null
classification error whose code equals the given code; in particular it is
false on the nil interface, on a typed nil pointer, on a foreign error,
and on a classification error with a different code. -/
theorem claim_C7_is_characterization (e : GoErrVal) (code : Int) :
    Is e code = true ↔ ∃ err, e = GoErrVal.cerr err ∧ err.ErrorCode = code := by
  cases e <;> simp [Is]

/-- Claim C3: after merging overlay O into base B, the registry keys are
exactly the union of the keys of B and O, lookups of keys of O give the
overlay message, lookups of keys only in B keep the base message, and the
registry size is the cardinality of the key union. -/
theorem claim_C3_setErrorsMessage_merge (B O : Registry)
    (hB : (B.map Prod.fst).Nodup) (hO : (O.map Prod.fst).Nodup) :
    (∀ k, k ∈ (SetErrorsMessage O B).map Prod.fst ↔
        (k ∈ B.map Prod.fst ∨ k ∈ O.map Prod.fst)) ∧
    (∀ k, k ∈ O.map Prod.fst →
        List.lookup k (SetErrorsMessage O B) = List.lookup k O) ∧
    (∀ k, k ∈ B.map Prod.fst → k ∉ O.map Prod.fst →
        List.lookup k (SetErrorsMessage O B) = List.lookup k B) ∧
    ((SetErrorsMessage O B).map Prod.fst).length =
      ((B.map Prod.fst).toFinset ∪ (O.map Prod.fst).toFinset).card := by
  refine ⟨fun k => mem_keys_setErrorsMessage O B k,
    fun k hk => lookup_setErrorsMessage_mem O B k hO hk,
    fun k _ hk2 => lookup_setErrorsMessage_not_mem O B k hk2, ?_⟩
  have hnd := nodup_keys_setErrorsMessage O B hB
  rw [← List.toFinset_card_of_nodup hnd]
  congr 1
  ext x
  simp [mem_keys_setErrorsMessage O B x]

/-- Claim C3 witness: the merge theorem applied at the source test fixture
maps, the default templates as base and the TestSetErrorMessageReplace
overlay. -/
theorem claim_C3_witness :
    (∀ k, k ∈ (SetErrorsMessage otherMessage templateError).map Prod.fst ↔
        (k ∈ templateError.map Prod.fst ∨ k ∈ otherMessage.map Prod.fst)) ∧
    (∀ k, k ∈ otherMessage.map Prod.fst →
        List.lookup k (SetErrorsMessage otherMessage templateError) =
          List.lookup k otherMessage) ∧
    (∀ k, k ∈ templateError.map Prod.fst → k ∉ otherMessage.map Prod.fst →
        List.lookup k (SetErrorsMessage otherMessage templateError) =
          List.lookup k templateError) ∧
    ((SetErrorsMessage otherMessage templateError).map Prod.fst).length =
      ((templateError.map Prod.fst).toFinset ∪
        (otherMessage.map Prod.fst).toFinset).card :=
  claim_C3_setErrorsMessage_merge templateError otherMessage (by decide) (by decide)

end cerror

namespace store

theorem getChild_mem (cs : List (String × Node)) (s : String) (c : Node)
    (h : getChild cs s = some c) : (s, c) ∈ cs := by
  unfold getChild at h
  cases hf : cs.find? (fun p => p.1 == s) with
  | none => rw [hf] at h; cases h
  | some p =>
    rw [hf] at h
    have hp := List.find?_some hf
    have hmem := List.mem_of_find?_eq_some hf
    have h1 : p.1 = s := by simpa using hp
    have h2 : p.2 = c := by simpa using h
    rw [← h1, ← h2]
    exact hmem

theorem wfb_key (segs : List String) (n : Node) (h : WFb segs n = true) :
    n.Key = segsToKey segs := by
  cases n with
  | mk k d v cs =>
    rw [WFb, Bool.and_eq_true] at h
    simpa using h.1

theorem wfb_children (segs : List String) (n : Node) (h : WFb segs n = true) :
    WFbChildren segs n.Children = true := by
  cases n with
  | mk k d v cs =>
    rw [WFb, Bool.and_eq_true] at h
    simpa using h.2

theorem wfbChildren_mem (segs : List String) (cs : List (String × Node))
    (hcs : WFbChildren segs cs = true) (s : String) (c : Node)
    (hmem : (s, c) ∈ cs) : WFb (segs ++ [s]) c = true := by
  induction cs with
  | nil => cases hmem
  | cons p rest ih =>
    cases p with
    | mk ps pn =>
      rw [WFbChildren, Bool.and_eq_true] at hcs
      rcases List.mem_cons.mp hmem with h1 | h1
      · cases h1
        exact hcs.1
      · exact ih hcs.2 h1

theorem walk_key (rest : List String) : ∀ (segs : List String) (n m : Node),
    WFb segs n = true → walk rest n = some m →
    m.Key = segsToKey (segs ++ rest) := by
  induction rest with
  | nil =>
    intro segs n m hwf hw
    rw [walk] at hw
    cases hw
    simpa using wfb_key segs n hwf
  | cons s rest ih =>
    intro segs n m hwf hw
    rw [walk] at hw
    by_cases hd : n.Dir = true
    · rw [if_pos hd] at hw
      cases hg : getChild n.Children s with
      | none => rw [hg] at hw; cases hw
      | some c =>
        rw [hg] at hw
        have hmem := getChild_mem _ _ _ hg
        have hc : WFb (segs ++ [s]) c = true :=
          wfbChildren_mem segs n.Children (wfb_children segs n hwf) s c hmem
        have hkey := ih (segs ++ [s]) c m hc hw
        rw [hkey, List.append_assoc]
        rfl
    · rw [if_neg hd] at hw
      cases hw

mutual

theorem cloneNode_eq : ∀ n : Node, cloneNode n = n
  | .mk k d v cs => by rw [cloneNode, cloneChildren_eq cs]

theorem cloneChildren_eq : ∀ cs : List (String × Node), cloneChildren cs = cs
  | [] => rfl
  | (s, n) :: rest => by rw [cloneChildren, cloneNode_eq n, cloneChildren_eq rest]

end

theorem splitOnSlashAux_no_slash : ∀ (l acc : List Char),
    (∀ c ∈ l, c ≠ '/') → splitOnSlashAux l acc = [acc.reverse ++ l] := by
  intro l
  induction l with
  | nil => intro acc _; simp [splitOnSlashAux]
  | cons c rest ih =>
    intro acc h
    have hc : c ≠ '/' := h c (List.mem_cons_self c rest)
    rw [splitOnSlashAux, if_neg hc, ih _ (fun x hx => h x (List.mem_cons_of_mem c hx))]
    simp

theorem pathSegs_no_slash (key : String) (h1 : ∀ ch ∈ key.data, ch ≠ '/')
    (h2 : key ≠ "") : pathSegs key = [key] := by
  unfold pathSegs
  rw [splitOnSlashAux_no_slash key.data [] h1]
  have hmk : String.mk key.data = key := by cases key; rfl
  simp [hmk, h2]

/-- Claim C4: a successful Delete of an existing key returns a Result with
action delete whose CurrNode and PrevNode are one and the same snapshot of
the node as it existed immediately before removal, carrying that node key,
dir flag and value. -/
theorem claim_C4_delete_result (st : defaultFileSystemStore) (key : String)
    (recursive dir : Bool) (st2 : defaultFileSystemStore) (r : Result)
    (hwf : WFb [] st.root = true)
    (h : st.Delete key recursive dir = .ok (st2, r)) :
    ∃ n, walk (pathSegs key) st.root = some n ∧
      r.Action = Delete ∧ r.CurrNode = r.PrevNode ∧
      ∃ c, r.CurrNode = some c ∧ c.Key = n.Key ∧ c.Dir = n.Dir ∧
        c.Value = n.Value := by
  rw [defaultFileSystemStore.Delete] at h
  split at h
  · cases h
  case _ n heq =>
    split at h
    · cases h
    · rw [Except.ok.injEq, Prod.mk.injEq] at h
      obtain ⟨h1, h2⟩ := h
      subst h2
      refine ⟨n, heq, rfl, rfl, ⟨Node.mk (segsToKey (pathSegs key)) n.Dir n.Value [],
        rfl, ?_, rfl, rfl⟩⟩
      have := walk_key (pathSegs key) [] st.root n hwf heq
      simp at this
      simp [this]

/-- Claim C4 witness: the Delete theorem applied to the store holding only
the leaf built by the demo Set call, at the key of that leaf. -/
theorem claim_C4_witness :
    ∃ n, walk (pathSegs "xxx") demoStore.root = some n ∧
      demoDeleteResult.Action = Delete ∧
      demoDeleteResult.CurrNode = demoDeleteResult.PrevNode ∧
      ∃ c, demoDeleteResult.CurrNode = some c ∧ c.Key = n.Key ∧
        c.Dir = n.Dir ∧ c.Value = n.Value :=
  claim_C4_delete_result demoStore "xxx" false false demoDeleteStore
    demoDeleteResult (by decide) (by rfl)

/-- Claim C5: Update on a key that resolves to an existing leaf succeeds
and returns a Result with action update, a non-null PrevNode whose value
is the value before the call, and a CurrNode whose value is the new
value. -/
theorem claim_C5_update_result (st : defaultFileSystemStore) (key value : String)
    (n : Node) (hw : walk (pathSegs key) st.root = some n) (hn : n.Dir = false) :
    ∃ st2 r, st.Update key value = .ok (st2, r) ∧
      r.Action = Update ∧
      (∃ p, r.PrevNode = some p ∧ p.Value = n.Value) ∧
      (∃ c, r.CurrNode = some c ∧ c.Value = some value) := by
  simp only [defaultFileSystemStore.Update, hw, hn, Bool.false_eq_true, if_false]
  exact ⟨_, _, rfl, rfl, ⟨_, rfl, rfl⟩, ⟨_, rfl, rfl⟩⟩

/-- Claim C5 witness: the Update theorem applied to the demo store at the
leaf it holds. -/
theorem claim_C5_witness :
    ∃ st2 r, demoStore.Update "/xxx" "newxxx" = .ok (st2, r) ∧
      r.Action = Update ∧
      (∃ p, r.PrevNode = some p ∧
        p.Value = (Node.mk "/xxx" false (some "xxx") []).Value) ∧
      (∃ c, r.CurrNode = some c ∧ c.Value = some "newxxx") :=
  claim_C5_update_result demoStore "/xxx" "newxxx"
    (Node.mk "/xxx" false (some "xxx") []) (by rfl) (by rfl)

/-- Claim C6: on a key that does not resolve, Set produces exactly the
outcome of Create with the action string set in place of create; on
success the Result has a null PrevNode and a CurrNode carrying the new
value under the canonical absolute key, which always starts with a slash
and is the key itself prefixed with a slash whenever the key has no
slashes of its own. -/
theorem claim_C6_set_fresh_create (st : defaultFileSystemStore) (key : String)
    (d : Bool) (v : String) (h : walk (pathSegs key) st.root = none) :
    (st.Set key d v = match st.Create key d v with
      | .ok p => .ok (p.1, { p.2 with Action := Set })
      | .error e => .error e) ∧
    (∀ st2 r, st.Set key d v = .ok (st2, r) →
      r.PrevNode = none ∧
      ∃ c, r.CurrNode = some c ∧ c.Key = segsToKey (pathSegs key) ∧
        (d = false → c.Value = some v) ∧ ∃ t, c.Key = "/" ++ t) ∧
    ((∀ ch ∈ key.data, ch ≠ '/') → key ≠ "" →
      segsToKey (pathSegs key) = "/" ++ key) := by
  refine ⟨?_, ?_, ?_⟩
  · rw [defaultFileSystemStore.Set, defaultFileSystemStore.Create, h]
    cases hc : createCore "/" st.root.Children d v (pathSegs key) with
    | error e => rfl
    | ok cs => rfl
  · intro st2 r hsr
    rw [defaultFileSystemStore.Set, h] at hsr
    cases hc : createCore "/" st.root.Children d v (pathSegs key) with
    | error e =>
      rw [hc] at hsr
      simp at hsr
    | ok cs =>
      rw [hc] at hsr
      have hsr2 : Except.ok ((⟨Node.mk "/" true none cs⟩ : defaultFileSystemStore),
          setCurrNodeMeta (newResult Set (segsToKey (pathSegs key))) d
            (if d then none else some v) []) = Except.ok (st2, r) := hsr
      rw [Except.ok.injEq, Prod.mk.injEq] at hsr2
      obtain ⟨h1, h2⟩ := hsr2
      subst h2
      refine ⟨rfl, ⟨Node.mk (segsToKey (pathSegs key)) d
        (if d then none else some v) [], rfl, rfl, ?_, ⟨joinSegs (pathSegs key), rfl⟩⟩⟩
      intro hd
      simp [hd]
  · intro h1 h2
    rw [pathSegs_no_slash key h1 h2]
    rfl

/-- Claim C6 witness: the Set versus Create theorem applied to a fresh
store at the slash-free key of the source tests. -/
theorem claim_C6_witness :
    (newDefaultFileSystemStore.Set "xxx" false "xxx" =
      match newDefaultFileSystemStore.Create "xxx" false "xxx" with
      | .ok p => .ok (p.1, { p.2 with Action := Set })
      | .error e => .error e) ∧
    (∀ st2 r, newDefaultFileSystemStore.Set "xxx" false "xxx" = .ok (st2, r) →
      r.PrevNode = none ∧
      ∃ c, r.CurrNode = some c ∧ c.Key = segsToKey (pathSegs "xxx") ∧
        (false = false → c.Value = some "xxx") ∧ ∃ t, c.Key = "/" ++ t) ∧
    ((∀ ch ∈ ("xxx" : String).data, ch ≠ '/') → ("xxx" : String) ≠ "" →
      segsToKey (pathSegs "xxx") = "/" ++ "xxx") :=
  claim_C6_set_fresh_create newDefaultFileSystemStore "xxx" false "xxx" (by rfl)

theorem get_ok_shape (st : defaultFileSystemStore) (key : String)
    (recursive sorted : Bool) (r : Result)
    (h : st.Get key recursive sorted = .ok r) :
    ∃ n, walk (pathSegs key) st.root = some n ∧
      r.Action = Get ∧
      r.CurrNode = some (Node.mk (segsToKey (pathSegs key)) n.Dir n.Value
        (listChildren n recursive sorted)) ∧
      r.PrevNode = none := by
  rw [defaultFileSystemStore.Get] at h
  split at h
  · cases h
  case _ n heq =>
    rw [Except.ok.injEq] at h
    subst h
    exact ⟨n, heq, rfl, rfl, rfl⟩

theorem create_ok_shape (st : defaultFileSystemStore) (key : String)
    (d : Bool) (v : String) (st2 : defaultFileSystemStore) (r : Result)
    (h : st.Create key d v = .ok (st2, r)) :
    r.Action = Create ∧
    r.CurrNode = some (Node.mk (segsToKey (pathSegs key)) d
      (if d then none else some v) []) ∧
    r.PrevNode = none := by
  rw [defaultFileSystemStore.Create] at h
  split at h
  · cases h
  · simp only [Except.ok.injEq, Prod.mk.injEq] at h
    obtain ⟨h1, h2⟩ := h
    subst h2
    exact ⟨rfl, rfl, rfl⟩

theorem set_ok_shape (st : defaultFileSystemStore) (key : String)
    (d : Bool) (v : String) (st2 : defaultFileSystemStore) (r : Result)
    (h : st.Set key d v = .ok (st2, r)) :
    r.Action = Set ∧
    r.CurrNode = some (Node.mk (segsToKey (pathSegs key)) d
      (if d then none else some v) []) ∧
    (r.PrevNode = none ∨
      ∃ old, walk (pathSegs key) st.root = some old ∧
        r.PrevNode = some (Node.mk (segsToKey (pathSegs key)) old.Dir old.Value
          old.Children)) := by
  rw [defaultFileSystemStore.Set] at h
  split at h
  · split at h
    · cases h
    · simp only [Except.ok.injEq, Prod.mk.injEq] at h
      obtain ⟨h1, h2⟩ := h
      subst h2
      exact ⟨rfl, rfl, Or.inl rfl⟩
  case _ old heq =>
    simp only [Except.ok.injEq, Prod.mk.injEq] at h
    obtain ⟨h1, h2⟩ := h
    subst h2
    exact ⟨rfl, rfl, Or.inr ⟨old, heq, rfl⟩⟩

theorem update_ok_shape (st : defaultFileSystemStore) (key : String)
    (v : String) (st2 : defaultFileSystemStore) (r : Result)
    (h : st.Update key v = .ok (st2, r)) :
    ∃ n, walk (pathSegs key) st.root = some n ∧
      r.Action = Update ∧
      r.CurrNode = some (Node.mk (segsToKey (pathSegs key)) false (some v) []) ∧
      r.PrevNode = some (Node.mk (segsToKey (pathSegs key)) n.Dir n.Value
        n.Children) := by
  rw [defaultFileSystemStore.Update] at h
  split at h
  · cases h
  case _ n heq =>
    split at h
    · cases h
    · simp only [Except.ok.injEq, Prod.mk.injEq] at h
      obtain ⟨h1, h2⟩ := h
      subst h2
      exact ⟨n, heq, rfl, rfl, rfl⟩

theorem delete_ok_shape (st : defaultFileSystemStore) (key : String)
    (recursive dir : Bool) (st2 : defaultFileSystemStore) (r : Result)
    (h : st.Delete key recursive dir = .ok (st2, r)) :
    ∃ n, walk (pathSegs key) st.root = some n ∧
      r.Action = Delete ∧
      r.CurrNode = some (Node.mk (segsToKey (pathSegs key)) n.Dir n.Value []) ∧
      r.PrevNode = r.CurrNode := by
  rw [defaultFileSystemStore.Delete] at h
  split at h
  · cases h
  case _ n heq =>
    split at h
    · cases h
    · simp only [Except.ok.injEq, Prod.mk.injEq] at h
      obtain ⟨h1, h2⟩ := h
      subst h2
      exact ⟨n, heq, rfl, rfl, rfl⟩

/-- Claim C8: whenever a successful Get, Set, Create, Update or Delete
returns a Result in which both CurrNode and PrevNode are present, the two
nodes carry the same key. -/
theorem claim_C8_key_invariant :
    (∀ st key recursive sorted r,
      defaultFileSystemStore.Get st key recursive sorted = .ok r → keysAligned r) ∧
    (∀ st key d v st2 r,
      defaultFileSystemStore.Set st key d v = .ok (st2, r) → keysAligned r) ∧
    (∀ st key d v st2 r,
      defaultFileSystemStore.Create st key d v = .ok (st2, r) → keysAligned r) ∧
    (∀ st key v st2 r,
      defaultFileSystemStore.Update st key v = .ok (st2, r) → keysAligned r) ∧
    (∀ st key recursive dir st2 r,
      defaultFileSystemStore.Delete st key recursive dir = .ok (st2, r) →
        keysAligned r) := by
  refine ⟨?_, ?_, ?_, ?_, ?_⟩
  · intro st key recursive sorted r h c p hc hp
    obtain ⟨n, -, -, -, hprev⟩ := get_ok_shape st key recursive sorted r h
    rw [hprev] at hp
    cases hp
  · intro st key d v st2 r h c p hc hp
    obtain ⟨-, hcurr, hprev⟩ := set_ok_shape st key d v st2 r h
    rcases hprev with hprev | ⟨old, -, hprev⟩
    · rw [hprev] at hp
      cases hp
    · rw [hprev, Option.some.injEq] at hp
      rw [hcurr, Option.some.injEq] at hc
      rw [← hp, ← hc]
      rfl
  · intro st key d v st2 r h c p hc hp
    obtain ⟨-, -, hprev⟩ := create_ok_shape st key d v st2 r h
    rw [hprev] at hp
    cases hp
  · intro st key v st2 r h c p hc hp
    obtain ⟨n, -, -, hcurr, hprev⟩ := update_ok_shape st key v st2 r h
    rw [hprev, Option.some.injEq] at hp
    rw [hcurr, Option.some.injEq] at hc
    rw [← hp, ← hc]
    rfl
  · intro st key recursive dir st2 r h c p hc hp
    obtain ⟨n, -, -, -, hprev⟩ := delete_ok_shape st key recursive dir st2 r h
    rw [hprev, hc, Option.some.injEq] at hp
    rw [hp]

/-- Claim C8 witness: the key invariant applied to the demo Update call,
whose Result has both nodes present. -/
theorem claim_C8_witness : keysAligned demoUpdateResult :=
  claim_C8_key_invariant.2.2.2.1 demoStore "/xxx" "newxxx" demoUpdateStore
    demoUpdateResult (by rfl)

/-- Claim C9: newResult always builds a Result with a present CurrNode,
and every successful Get, Set, Create, Update and Delete returns a Result
whose CurrNode is present and carries the canonical absolute form of the
requested key. -/
theorem claim_C9_currNode_canonical :
    (∀ action key, (newResult action key).CurrNode ≠ none) ∧
    (∀ st key recursive sorted r,
      defaultFileSystemStore.Get st key recursive sorted = .ok r →
        ∃ c, r.CurrNode = some c ∧ c.Key = segsToKey (pathSegs key)) ∧
    (∀ st key d v st2 r,
      defaultFileSystemStore.Set st key d v = .ok (st2, r) →
        ∃ c, r.CurrNode = some c ∧ c.Key = segsToKey (pathSegs key)) ∧
    (∀ st key d v st2 r,
      defaultFileSystemStore.Create st key d v = .ok (st2, r) →
        ∃ c, r.CurrNode = some c ∧ c.Key = segsToKey (pathSegs key)) ∧
    (∀ st key v st2 r,
      defaultFileSystemStore.Update st key v = .ok (st2, r) →
        ∃ c, r.CurrNode = some c ∧ c.Key = segsToKey (pathSegs key)) ∧
    (∀ st key recursive dir st2 r,
      defaultFileSystemStore.Delete st key recursive dir = .ok (st2, r) →
        ∃ c, r.CurrNode = some c ∧ c.Key = segsToKey (pathSegs key)) := by
  refine ⟨?_, ?_, ?_, ?_, ?_, ?_⟩
  · intro action key
    simp [newResult]
  · intro st key recursive sorted r h
    obtain ⟨n, -, -, hcurr, -⟩ := get_ok_shape st key recursive sorted r h
    exact ⟨_, hcurr, rfl⟩
  · intro st key d v st2 r h
    obtain ⟨-, hcurr, -⟩ := set_ok_shape st key d v st2 r h
    exact ⟨_, hcurr, rfl⟩
  · intro st key d v st2 r h
    obtain ⟨-, hcurr, -⟩ := create_ok_shape st key d v st2 r h
    exact ⟨_, hcurr, rfl⟩
  · intro st key v st2 r h
    obtain ⟨n, -, -, hcurr, -⟩ := update_ok_shape st key v st2 r h
    exact ⟨_, hcurr, rfl⟩
  · intro st key recursive dir st2 r h
    obtain ⟨n, -, -, hcurr, -⟩ := delete_ok_shape st key recursive dir st2 r h
    exact ⟨_, hcurr, rfl⟩

/-- Claim C9 witness: the canonical CurrNode property applied to the demo
Get call on the key without a leading slash. -/
theorem claim_C9_witness :
    ∃ c, demoGetResult.CurrNode = some c ∧ c.Key = segsToKey (pathSegs "xxx") :=
  claim_C9_currNode_canonical.2.1 demoStore "xxx" false false demoGetResult (by rfl)

/-- Claim C10: Clone on a Result keeps the action, deep copies both node
pointers through the Node Clone (a deep copy that preserves every field),
and on a Result whose PrevNode is nil it totally returns a Result whose
PrevNode is nil rather than failing. -/
theorem claim_C10_result_clone (r : Result) :
    r.Clone.Action = r.Action ∧
    r.Clone.CurrNode = Node.Clone r.CurrNode ∧
    r.Clone.PrevNode = Node.Clone r.PrevNode ∧
    Node.Clone none = none ∧
    (∀ n, cloneNode n = n) ∧
    (r.PrevNode = none → r.Clone.PrevNode = none) := by
  refine ⟨rfl, rfl, rfl, rfl, cloneNode_eq, ?_⟩
  intro h
  show Node.Clone r.PrevNode = none
  rw [h]
  rfl

/-- Claim C10 witness: the Clone theorem applied to the demo Get Result,
whose PrevNode is nil. -/
theorem claim_C10_witness :
    demoGetResult.Clone.PrevNode = none ∧
    demoGetResult.Clone.Action = demoGetResult.Action :=
  ⟨(claim_C10_result_clone demoGetResult).2.2.2.2.2 (by rfl),
    (claim_C10_result_clone demoGetResult).1⟩

theorem model_store_scenario :
    demoStore.root = Node.mk "/" true none
      [("xxx", Node.mk "/xxx" false (some "xxx") [])] ∧
    demoUpdateResult = ⟨Update, some (Node.mk "/xxx" false (some "newxxx") []),
      some (Node.mk "/xxx" false (some "xxx") [])⟩ ∧
    demoDeleteStore.root = Node.mk "/" true none [] ∧
    ∃ e, demoDeleteStore.Get "xxx" false false = .error e ∧
      e.ErrorCode = cerror.EcodeNotExists :=
  ⟨rfl, rfl, rfl, ⟨_, rfl, rfl⟩⟩

end store

end Deustgo
